import Mathlib

/-!
# simulated-evolution: the rendering front-end of `cmd/simulated-evolution/main.go`

A shallow embedding of `main.go`.  The program is stateful Go code over the
`faiface/pixel` library; it is modelled by explicit state passing.

* `float64` is an abstract carrier `F` with the operations the file uses
  (`Float64Ops`): nothing is assumed about rounding.
* the parts of `faiface/pixel` that are called are parameters (`PixelLib`).
* the packages `pkg/types` (`World`, `NewWorld`, `Update`, `Entity`) and
  `pkg/utils` (`Point`) lie outside `main.go`; what `main.go` uses of them is
  a parameter (`TypesPkg`) or modelled from the specification.
* a Go `panic` is the error side of `Except Err`.
-/

namespace SimulatedEvolution

/-! ## Data model -/

/-- The run-time failures reachable from `main.go`. -/
inductive Err where
  | indexOutOfRange
  | divideByZero
  | config
  | window
  | asset
  deriving DecidableEq, Repr

/-- The type `pixel.Vec`: a pair of `float64`. -/
structure Vec (F : Type) where
  X : F
  Y : F
  deriving DecidableEq, Repr

/-- The type `pixel.Rect`: two corners. -/
structure Rect (F : Type) where
  Min : Vec F
  Max : Vec F
  deriving DecidableEq, Repr

/-- Modelled from the spec: the type `u.Point` of `pkg/utils` (the Position of
the specification).  `main.go` reads its fields `X` and `Y` and passes them to
`pixel.V`, so they are `float64`. -/
structure Point (F : Type) where
  X : F
  Y : F
  deriving DecidableEq, Repr

/-- Modelled from the spec: the interface `t.Entity` of `pkg/types`, reduced to
the two methods `main.go` calls, `EntityType()` and `Id()`; both are read-only
accessors. -/
structure Entity where
  EntityType : String
  Id : Int
  deriving DecidableEq, Repr

/-- A Go `map[K]V`: its key/value pairs, listed in the order one `range`
statement visits them, with pairwise distinct keys.  Go leaves the order
unspecified; every list with distinct keys is a possible order. -/
structure GoMap (K V : Type) where
  entries : List (K × V)
  nodup : (entries.map Prod.fst).Nodup

/-- The arithmetic of `float64` that `main.go` uses.  `lit q` is the value of
the numeric literal `q`; `Pow` is `math.Pow`. -/
structure Float64Ops (F : Type) where
  lit : Rat → F
  add : F → F → F
  sub : F → F → F
  mul : F → F → F
  Pow : F → F → F

/-- The functions of `faiface/pixel` on `pixel.Matrix` (carrier `M`) and
`pixel.Rect` that `main.go` calls. -/
structure PixelLib (F M : Type) where
  IM : M
  Scaled : M → Vec F → F → M
  Moved : M → Vec F → M
  Unproject : M → Vec F → Vec F
  Center : Rect F → Vec F

/-- The type `SpritesSheet` of package `main`: a picture and the rectangles of
its frames. -/
structure SpritesSheet (F Pic : Type) where
  sprites : Pic
  frames : List (Rect F)

/-- One `sprite.Draw(batch, matrix)`: the sprite made by
`pixel.NewSprite(pic, frame)` drawn with `matrix`. -/
structure Sprite (F M Pic : Type) where
  pic : Pic
  frame : Rect F
  matrix : M
  deriving DecidableEq, Repr

/-- The contents of a `pixel.Batch`: the sprites drawn into it since it was
last cleared, oldest first. -/
abbrev Batch (F M Pic : Type) := List (Sprite F M Pic)

/-- The observable state of a `pixelgl.Window`. -/
structure Window (F M Pic : Type) where
  matrix : M
  canvas : List (Sprite F M Pic)
  title : String
  bounds : Rect F

/-- The objects `drawWorld` receives by pointer. -/
structure Scene (W F M Pic : Type) where
  win : Window F M Pic
  tb : Batch F M Pic
  ab : Batch F M Pic
  tSheet : SpritesSheet F Pic
  aSheet : SpritesSheet F Pic
  world : W

/-- The package-level variables of `main.go` together with the objects that
`run` creates. -/
structure State (W F M Pic : Type) where
  camPos : Vec F
  camSpeed : F
  camZoom : F
  camZoomSpeed : F
  frames : Int
  scene : Scene W F M Pic

/-- What `pkg/types` provides to `main.go`, taken as a parameter: the world a
successful `NewWorld` builds, `World.Update`, and the field `Entities`. -/
structure TypesPkg (W F : Type) where
  build : Int → Int → W
  Update : W → W
  Entities : W → GoMap (Point F) Entity

/-- What one iteration of the loop in `run` reads from outside: the elapsed
time, the state of the four arrow keys, the mouse scroll, and whether the
one-second ticker has a tick ready at the `select`. -/
structure FrameInput (F : Type) where
  dt : F
  left : Bool
  right : Bool
  down : Bool
  up : Bool
  scroll : Vec F
  tick : Bool

/-- What `run` obtains from outside before the loop: the sprite sheet that
`NewSpritesSheet` loads from a file (none when loading fails) and whether
`pixelgl.NewWindow` succeeds. -/
structure Setup (F Pic : Type) where
  NewSpritesSheet : String → Int → Option (SpritesSheet F Pic)
  windowOk : Bool

/-! ## Constants and package-level variables -/

def TreesPNG : String := "trees.png"

def AnimalsPNG : String := "animals2.png"

def ScreenWidth : Int := 1024

def ScreenHeight : Int := 768

/-- The field `Title` of the window configuration in `run`. -/
def cfgTitle : String := "Simulated evolution"

/-- The value `pixel.R(minX, minY, maxX, maxY)` for corners given in order. -/
def R {F : Type} (minX minY maxX maxY : F) : Rect F :=
  ⟨⟨minX, minY⟩, ⟨maxX, maxY⟩⟩

/-- The field `Bounds` of the window configuration in `run`. -/
def cfgBounds {F : Type} (O : Float64Ops F) : Rect F :=
  R (O.lit 0) (O.lit 0) (O.lit 1024) (O.lit 768)

/-- The method `Vec.Sub` of pixel. -/
def Vec.Sub {F : Type} (O : Float64Ops F) (u v : Vec F) : Vec F :=
  ⟨O.sub u.X v.X, O.sub u.Y v.Y⟩

/-- Two-complement wrap-around of Go's 64-bit `int`. -/
def wrapInt (x : Int) : Int := (x + 2 ^ 63) % 2 ^ 64 - 2 ^ 63

/-! ## Operations -/

/-- The Go expression `frames[i]` on a slice. -/
def index {α : Type} (xs : List α) (i : Int) : Except Err α :=
  if 0 ≤ i then
    match xs[i.toNat]? with
    | some x => .ok x
    | none => .error .indexOutOfRange
  else .error .indexOutOfRange

/-- The Go expression `a % b` on `int`: truncated remainder, a panic when the
divisor is zero. -/
def goRem (a b : Int) : Except Err Int :=
  if b = 0 then .error .divideByZero else .ok (Int.tmod a b)

/-- The function `detectKeyPress`: the key and scroll state of the window is
the one of `inp`. -/
def detectKeyPress {W F M Pic : Type} (O : Float64Ops F)
    (s : State W F M Pic) (inp : FrameInput F) : State W F M Pic :=
  let s1 := if inp.left then
    { s with camPos := { s.camPos with X := O.sub s.camPos.X (O.mul s.camSpeed inp.dt) } } else s
  let s2 := if inp.right then
    { s1 with camPos := { s1.camPos with X := O.add s1.camPos.X (O.mul s1.camSpeed inp.dt) } } else s1
  let s3 := if inp.down then
    { s2 with camPos := { s2.camPos with Y := O.sub s2.camPos.Y (O.mul s2.camSpeed inp.dt) } } else s2
  let s4 := if inp.up then
    { s3 with camPos := { s3.camPos with Y := O.add s3.camPos.Y (O.mul s3.camSpeed inp.dt) } } else s3
  { s4 with camZoom := O.mul s4.camZoom (O.Pow s4.camZoomSpeed inp.scroll.Y) }

/-- The function `addToBatch`. -/
def addToBatch {F M Pic : Type} (P : PixelLib F M) (cam : M) (b : Batch F M Pic)
    (sprites : Pic) (r : Rect F) (pos : Point F) : Batch F M Pic :=
  b ++ [⟨sprites, r, P.Moved P.IM (P.Unproject cam ⟨pos.X, pos.Y⟩)⟩]

/-- The body of the `range` loop of `drawWorld` for one map entry. -/
def drawEntity {W F M Pic : Type} (P : PixelLib F M) (cam : M)
    (sc : Scene W F M Pic) (pe : Point F × Entity) : Except Err (Scene W F M Pic) :=
  if pe.2.EntityType = "tree" then do
    let r ← index sc.tSheet.frames pe.2.Id
    pure { sc with tb := addToBatch P cam sc.tb sc.tSheet.sprites r pe.1 }
  else if pe.2.EntityType = "animal" then do
    let l : Int := sc.aSheet.frames.length
    let i ← goRem pe.2.Id l
    let r ← index sc.aSheet.frames i
    pure { sc with ab := addToBatch P cam sc.ab sc.aSheet.sprites r pe.1 }
  else pure sc

/-- The method `Batch.Draw(win)`: the batch is drawn onto the window. -/
def Window.draw {F M Pic : Type} (w : Window F M Pic) (b : Batch F M Pic) :
    Window F M Pic :=
  { w with canvas := w.canvas ++ b }

/-- The function `drawWorld`. -/
def drawWorld {W F M Pic : Type} (T : TypesPkg W F) (P : PixelLib F M) (cam : M)
    (sc : Scene W F M Pic) : Except Err (Scene W F M Pic) := do
  let sc1 := { sc with tb := [], ab := [] }
  let sc2 ← (T.Entities sc1.world).entries.foldlM (drawEntity P cam) sc1
  let sc3 := { sc2 with win := sc2.win.draw sc2.tb }
  pure { sc3 with win := sc3.win.draw sc3.ab }

/-- Modelled from the spec: the function `NewWorld` of `pkg/types`, which
"fails fatally only if width/height ≤ 0" and otherwise returns the seeded
world. -/
def NewWorld {W F : Type} (T : TypesPkg W F) (width height : Int) : Except Err W :=
  if width ≤ 0 ∨ height ≤ 0 then .error .config else .ok (T.build width height)

/-- The title `fmt.Sprintf("%s | FPS: %d", title, frames)`. -/
def fpsTitle (title : String) (frames : Int) : String :=
  title ++ " | FPS: " ++ toString frames

/-- The camera matrix computed in the loop of `run`. -/
def camera {W F M Pic : Type} (P : PixelLib F M) (O : Float64Ops F)
    (s : State W F M Pic) : M :=
  P.Moved (P.Scaled P.IM s.camPos s.camZoom)
    (Vec.Sub O (P.Center s.scene.win.bounds) s.camPos)

/-- The first half of one loop iteration of `run`, from `detectKeyPress` up to
and including `world.Update()`: the window has the camera matrix set and is
cleared, the world is updated.  `drawWorld` is then called on this state. -/
def beforeDraw {W F M Pic : Type} (T : TypesPkg W F) (P : PixelLib F M)
    (O : Float64Ops F) (s : State W F M Pic) (inp : FrameInput F) : State W F M Pic :=
  let s1 := detectKeyPress O s inp
  let cam := camera P O s1
  let win1 := { s1.scene.win with matrix := cam }
  let win2 := { win1 with canvas := [] }
  { s1 with scene := { s1.scene with win := win2, world := T.Update s1.scene.world } }

/-- The end of one loop iteration of `run`: `frames++` and the `select` on the
one-second ticker. -/
def countFrame {W F M Pic : Type} (s : State W F M Pic) (tick : Bool) :
    State W F M Pic :=
  let s1 := { s with frames := wrapInt (s.frames + 1) }
  if tick then
    { s1 with
      scene := { s1.scene with win := { s1.scene.win with title := fpsTitle cfgTitle s1.frames } },
      frames := 0 }
  else s1

/-- One iteration of the loop of `run`.  The call `win.Update()` presents the
canvas and polls the events the next iteration reads; it changes nothing of the
state kept here. -/
def frame {W F M Pic : Type} (T : TypesPkg W F) (P : PixelLib F M)
    (O : Float64Ops F) (s : State W F M Pic) (inp : FrameInput F) :
    Except Err (State W F M Pic) := do
  let cam := camera P O (detectKeyPress O s inp)
  let s1 := beforeDraw T P O s inp
  let sc ← drawWorld T P cam s1.scene
  pure (countFrame { s1 with scene := sc } inp.tick)

/-- The loop of `run`: one iteration per element of `inputs`, after which the
window is closed. -/
def loop {W F M Pic : Type} (T : TypesPkg W F) (P : PixelLib F M)
    (O : Float64Ops F) (inputs : List (FrameInput F)) (s : State W F M Pic) :
    Except Err (State W F M Pic) :=
  inputs.foldlM (frame T P O) s

/-- The state `run` has built when it enters the loop. -/
def start {W F M Pic : Type} (T : TypesPkg W F) (P : PixelLib F M)
    (O : Float64Ops F) (E : Setup F Pic) : Except Err (State W F M Pic) := do
  let world ← NewWorld T ScreenWidth ScreenHeight
  let treesSheet ← (E.NewSpritesSheet TreesPNG 32).elim (.error .asset) .ok
  let animalsSheet ← (E.NewSpritesSheet AnimalsPNG 48).elim (.error .asset) .ok
  let win : Window F M Pic ←
    if E.windowOk then
      pure { matrix := P.IM, canvas := [], title := cfgTitle, bounds := cfgBounds O }
    else .error .window
  pure
    { camPos := ⟨O.lit 0, O.lit 0⟩
      camSpeed := O.lit 500
      camZoom := O.lit 1
      camZoomSpeed := O.lit (6 / 5)
      frames := 0
      scene :=
        { win := win, tb := [], ab := [], tSheet := treesSheet, aSheet := animalsSheet,
          world := world } }

/-- The function `run`, for a window that is closed after `inputs.length`
frames. -/
def run {W F M Pic : Type} (T : TypesPkg W F) (P : PixelLib F M)
    (O : Float64Ops F) (E : Setup F Pic) (inputs : List (FrameInput F)) :
    Except Err (State W F M Pic) := do
  let s ← start T P O E
  loop T P O inputs s

/-! ## Specification-side definitions -/

/-- The entry is handled by the `case "tree"` of the `switch`. -/
def isTree {F : Type} (pe : Point F × Entity) : Bool :=
  decide (pe.2.EntityType = "tree")

/-- The entry is handled by the `case "animal"` of the `switch`. -/
def isAnimal {F : Type} (pe : Point F × Entity) : Bool :=
  decide (pe.2.EntityType = "animal")

/-- The matrix a sprite for the entry at `pos` is drawn with: the identity moved
to `cam.Unproject` of the position. -/
def spriteMatrix {F M : Type} (P : PixelLib F M) (cam : M) (pos : Point F) : M :=
  P.Moved P.IM (P.Unproject cam ⟨pos.X, pos.Y⟩)

/-- The sprite that the `case "tree"` draws for an entry, when the frame lookup
`tSheet.frames[e.Id()]` succeeds. -/
def treeSprite {F M Pic : Type} (P : PixelLib F M) (cam : M)
    (tSheet : SpritesSheet F Pic) (pe : Point F × Entity) : Except Err (Sprite F M Pic) :=
  match index tSheet.frames pe.2.Id with
  | .ok r => .ok ⟨tSheet.sprites, r, spriteMatrix P cam pe.1⟩
  | .error e => .error e

/-- The sprite that the `case "animal"` draws for an entry, when the frame
lookup `aSheet.frames[e.Id()%l]` succeeds. -/
def animalSprite {F M Pic : Type} (P : PixelLib F M) (cam : M)
    (aSheet : SpritesSheet F Pic) (pe : Point F × Entity) : Except Err (Sprite F M Pic) :=
  match goRem pe.2.Id aSheet.frames.length with
  | .ok i =>
    match index aSheet.frames i with
    | .ok r => .ok ⟨aSheet.sprites, r, spriteMatrix P cam pe.1⟩
    | .error e => .error e
  | .error e => .error e

/-- The number of loop iterations completed since the last one in which the
ticker fired (or since the start), given for each completed iteration whether
the ticker fired in it. -/
def framesSinceTick (ticks : List Bool) : Nat :=
  (ticks.reverse.takeWhile (fun b => !b)).length

/-! ## An exact-arithmetic instance

The definitions above are evaluated on concrete inputs with rational numbers
for `float64` and uniform-scale affine maps for `pixel.Matrix`. -/

/-- Exact rational arithmetic; `Pow` takes the integer part of the exponent. -/
def ratOps : Float64Ops Rat where
  lit := id
  add := fun x y => x + y
  sub := fun x y => x - y
  mul := fun x y => x * y
  Pow := fun x y => x ^ y.floor

/-- The map `p ↦ scale * p + shift` of the plane. -/
structure Affine where
  scale : Rat
  shift : Vec Rat
  deriving DecidableEq, Repr

/-- The matrix functions of pixel on uniform-scale affine maps. -/
def ratPixel : PixelLib Rat Affine where
  IM := ⟨1, ⟨0, 0⟩⟩
  Scaled := fun m around k =>
    ⟨m.scale * k, ⟨(m.shift.X - around.X) * k + around.X, (m.shift.Y - around.Y) * k + around.Y⟩⟩
  Moved := fun m d => ⟨m.scale, ⟨m.shift.X + d.X, m.shift.Y + d.Y⟩⟩
  Unproject := fun m u => ⟨(u.X - m.shift.X) / m.scale, (u.Y - m.shift.Y) / m.scale⟩
  Center := fun r => ⟨(r.Min.X + r.Max.X) / 2, (r.Min.Y + r.Max.Y) / 2⟩

/-- A world that is its own tick count `n`: a tree with id `treeId` at `(n, 0)`,
an animal with id `animalId` at `(n, 1)` and a rock at `(n, 2)`. -/
def demoWorld (treeId animalId : Int) : TypesPkg Nat Rat where
  build := fun _ _ => 0
  Update := fun n => n + 1
  Entities := fun n =>
    ⟨[(⟨n, 0⟩, ⟨"tree", treeId⟩), (⟨n, 1⟩, ⟨"animal", animalId⟩), (⟨n, 2⟩, ⟨"rock", 5⟩)],
      by simp⟩

/-- The demo world with a tree of id 0 and an animal of id 7. -/
def demoTypes : TypesPkg Nat Rat := demoWorld 0 7

/-- Sheets of two frames of the given size, cut from the picture named by the
file. -/
def demoSetup : Setup Rat String where
  NewSpritesSheet := fun file size =>
    some ⟨file, [R 0 0 size size, R size 0 (2 * size) size]⟩
  windowOk := true

/-- The scene `run` starts from in the demo: empty batches, two-frame sheets,
the world at tick 0. -/
def demoScene : Scene Nat Rat Affine String where
  win := ⟨ratPixel.IM, [], cfgTitle, cfgBounds ratOps⟩
  tb := []
  ab := []
  tSheet := ⟨TreesPNG, [R 0 0 32 32, R 32 0 64 32]⟩
  aSheet := ⟨AnimalsPNG, [R 0 0 48 48, R 48 0 96 48]⟩
  world := 0

/-- The sprite of the demo tree: frame 0 of the tree sheet at `(0, 0)`. -/
def demoTreeSprite : Sprite Rat Affine String :=
  ⟨TreesPNG, R 0 0 32 32, ⟨1, ⟨0, 0⟩⟩⟩

/-- The sprite of the demo animal: frame `7 mod 2 = 1` of the animal sheet at
`(0, 1)`. -/
def demoAnimalSprite : Sprite Rat Affine String :=
  ⟨AnimalsPNG, R 48 0 96 48, ⟨1, ⟨0, 1⟩⟩⟩

/-- The demo scene after one `drawWorld` with the identity camera. -/
def demoDrawn : Scene Nat Rat Affine String :=
  { demoScene with
    win := { demoScene.win with canvas := [demoTreeSprite, demoAnimalSprite] }
    tb := [demoTreeSprite]
    ab := [demoAnimalSprite] }

/-- A frame in which nothing is pressed and the ticker does not fire. -/
def idle : FrameInput Rat := ⟨1 / 60, false, false, false, false, ⟨0, 0⟩, false⟩

/-- The state of the demo when `run` enters its loop. -/
def demoStart : State Nat Rat Affine String :=
  ⟨⟨0, 0⟩, 500, 1, 6 / 5, 0, demoScene⟩

/-- The state of the demo after a first frame without input, in which the
ticker fires or not: the world is at tick 1 and is drawn through the camera
centred on the window. -/
def demoFirstFrame (tick : Bool) : State Nat Rat Affine String :=
  { demoStart with
    frames := if tick then 0 else 1
    scene :=
      { demoScene with
        win :=
          { matrix := ⟨1, ⟨512, 384⟩⟩
            canvas :=
              [⟨TreesPNG, R 0 0 32 32, ⟨1, ⟨-511, -384⟩⟩⟩,
                ⟨AnimalsPNG, R 48 0 96 48, ⟨1, ⟨-511, -383⟩⟩⟩]
            title := if tick then "Simulated evolution | FPS: 1" else cfgTitle
            bounds := cfgBounds ratOps }
        tb := [⟨TreesPNG, R 0 0 32 32, ⟨1, ⟨-511, -384⟩⟩⟩]
        ab := [⟨AnimalsPNG, R 48 0 96 48, ⟨1, ⟨-511, -383⟩⟩⟩]
        world := 1 } }

/-! ## Lemmas on `drawWorld` -/

section DrawLemmas

variable {W F M Pic : Type}

theorem drawEntity_eq (P : PixelLib F M) (cam : M) (sc : Scene W F M Pic)
    (pe : Point F × Entity) :
    drawEntity P cam sc pe =
      if isTree pe then
        match treeSprite P cam sc.tSheet pe with
        | .ok s => .ok { sc with tb := sc.tb ++ [s] }
        | .error e => .error e
      else if isAnimal pe then
        match animalSprite P cam sc.aSheet pe with
        | .ok s => .ok { sc with ab := sc.ab ++ [s] }
        | .error e => .error e
      else .ok sc := by
  unfold drawEntity isTree isAnimal treeSprite animalSprite addToBatch spriteMatrix
  by_cases ht : pe.2.EntityType = "tree"
  · simp only [ht, if_true, decide_True]
    cases index sc.tSheet.frames pe.2.Id <;> rfl
  · by_cases ha : pe.2.EntityType = "animal"
    · simp only [ha, if_true, decide_True]
      have : ¬ ("animal" = "tree") := by decide
      simp only [this, if_false, decide_False]
      cases goRem pe.2.Id sc.aSheet.frames.length with
      | error e => rfl
      | ok i => cases hi : index sc.aSheet.frames i <;> simp [bind, Except.bind, hi, pure, Except.pure]
    · simp only [ht, ha, if_false, decide_False]
      rfl

theorem scene_append_nil (sc : Scene W F M Pic) :
    { sc with tb := sc.tb ++ [], ab := sc.ab ++ [] } = sc := by
  cases sc
  simp

/-- The loop of `drawWorld` returns exactly when every tree and every animal
entry has a sprite, and then it appends these sprites, in iteration order, to
the two batches and changes nothing else. -/
theorem foldlM_drawEntity_ok (P : PixelLib F M) (cam : M) :
    ∀ (es : List (Point F × Entity)) (sc r : Scene W F M Pic),
      es.foldlM (drawEntity P cam) sc = .ok r ↔
        ∃ ts as,
          List.Forall₂ (fun pe s => treeSprite P cam sc.tSheet pe = .ok s)
            (es.filter isTree) ts ∧
          List.Forall₂ (fun pe s => animalSprite P cam sc.aSheet pe = .ok s)
            (es.filter isAnimal) as ∧
          r = { sc with tb := sc.tb ++ ts, ab := sc.ab ++ as } := by
  intro es
  induction es with
  | nil =>
    intro sc r
    simp only [List.foldlM_nil, List.filter_nil, List.forall₂_nil_left_iff, pure, Except.pure]
    constructor
    · intro h
      refine ⟨[], [], rfl, rfl, ?_⟩
      rw [scene_append_nil]
      exact (Except.ok.inj h).symm
    · rintro ⟨ts, as, rfl, rfl, h⟩
      rw [scene_append_nil] at h
      rw [h]
  | cons pe es ih =>
    intro sc r
    rw [List.foldlM_cons, drawEntity_eq]
    by_cases ht : isTree pe = true
    · have hna : isAnimal pe = false := by
        unfold isTree at ht
        unfold isAnimal
        have h1 : pe.2.EntityType = "tree" := of_decide_eq_true ht
        rw [h1]
        decide
      simp only [ht, if_true, List.filter_cons_of_pos, hna, List.filter_cons_of_neg,
        Bool.false_eq_true, not_false_eq_true, List.forall₂_cons_left_iff]
      cases hs : treeSprite P cam sc.tSheet pe with
      | error e =>
        simp only [bind, Except.bind]
        constructor
        · intro h
          cases h
        · rintro ⟨ts, as, ⟨b, u, hb, _, _⟩, _, _⟩
          cases hb
      | ok s =>
        simp only [bind, Except.bind]
        rw [ih]
        constructor
        · rintro ⟨ts, as, h1, h2, h3⟩
          refine ⟨s :: ts, as, ⟨s, ts, rfl, h1, rfl⟩, h2, ?_⟩
          rw [h3]
          simp
        · rintro ⟨ts, as, ⟨b, u, hb, h1, rfl⟩, h2, h3⟩
          cases hb
          refine ⟨u, as, h1, h2, ?_⟩
          rw [h3]
          simp
    · have htf : isTree pe = false := by simpa using ht
      by_cases ha : isAnimal pe = true
      · simp only [htf, Bool.false_eq_true, if_false, ha, if_true, List.filter_cons_of_pos,
          List.filter_cons_of_neg, not_false_eq_true, List.forall₂_cons_left_iff]
        cases hs : animalSprite P cam sc.aSheet pe with
        | error e =>
          simp only [bind, Except.bind]
          constructor
          · intro h
            cases h
          · rintro ⟨ts, as, _, ⟨b, u, hb, _, _⟩, _⟩
            cases hb
        | ok s =>
          simp only [bind, Except.bind]
          rw [ih]
          constructor
          · rintro ⟨ts, as, h1, h2, h3⟩
            refine ⟨ts, s :: as, h1, ⟨s, as, rfl, h2, rfl⟩, ?_⟩
            rw [h3]
            simp
          · rintro ⟨ts, as, h1, ⟨b, u, hb, h2, rfl⟩, h3⟩
            cases hb
            refine ⟨ts, u, h1, h2, ?_⟩
            rw [h3]
            simp
      · have haf : isAnimal pe = false := by simpa using ha
        simp only [htf, haf, Bool.false_eq_true, if_false, List.filter_cons_of_neg,
          not_false_eq_true, bind, Except.bind]
        exact ih sc r

/-- The function `drawWorld` returns exactly when every tree and every animal
entry has a sprite; the batches then hold these sprites and the window has both
batches drawn onto it. -/
theorem drawWorld_ok_iff (T : TypesPkg W F) (P : PixelLib F M) (cam : M)
    (sc r : Scene W F M Pic) :
    drawWorld T P cam sc = .ok r ↔
      ∃ ts as,
        List.Forall₂ (fun pe s => treeSprite P cam sc.tSheet pe = .ok s)
          ((T.Entities sc.world).entries.filter isTree) ts ∧
        List.Forall₂ (fun pe s => animalSprite P cam sc.aSheet pe = .ok s)
          ((T.Entities sc.world).entries.filter isAnimal) as ∧
        r = { sc with tb := ts, ab := as, win := (sc.win.draw ts).draw as } := by
  unfold drawWorld
  simp only [bind, Except.bind, pure, Except.pure]
  cases hf : List.foldlM (drawEntity P cam) { sc with tb := [], ab := [] }
      (T.Entities sc.world).entries with
  | error e =>
    simp only [false_iff, not_exists, not_and, reduceCtorEq]
    intro ts as h1 h2 _
    have := (foldlM_drawEntity_ok P cam (T.Entities sc.world).entries
      { sc with tb := [], ab := [] } _).2 ⟨ts, as, h1, h2, rfl⟩
    rw [hf] at this
    cases this
  | ok sc2 =>
    obtain ⟨ts, as, h1, h2, h3⟩ := (foldlM_drawEntity_ok P cam _ _ _).1 hf
    subst h3
    simp only [List.nil_append, Except.ok.injEq]
    constructor
    · intro h
      exact ⟨ts, as, h1, h2, h.symm⟩
    · rintro ⟨ts2, as2, g1, g2, rfl⟩
      have e1 : ts2 = ts := by
        have := (foldlM_drawEntity_ok P cam (T.Entities sc.world).entries
          { sc with tb := [], ab := [] } _).2 ⟨ts2, as2, g1, g2, rfl⟩
        rw [hf] at this
        have := congrArg Scene.tb (Except.ok.inj this)
        simpa using this.symm
      have e2 : as2 = as := by
        have := (foldlM_drawEntity_ok P cam (T.Entities sc.world).entries
          { sc with tb := [], ab := [] } _).2 ⟨ts2, as2, g1, g2, rfl⟩
        rw [hf] at this
        have := congrArg Scene.ab (Except.ok.inj this)
        simpa using this.symm
      subst e1 e2
      rfl

theorem forall₂_sprite_unique {α β : Type} (f : α → Except Err β) :
    ∀ (l : List α) (u v : List β),
      List.Forall₂ (fun a b => f a = .ok b) l u →
      List.Forall₂ (fun a b => f a = .ok b) l v → u = v := by
  intro l
  induction l with
  | nil =>
    intro u v hu hv
    rw [List.forall₂_nil_left_iff] at hu hv
    rw [hu, hv]
  | cons a l ih =>
    intro u v hu hv
    rw [List.forall₂_cons_left_iff] at hu hv
    obtain ⟨b, u2, hb, hu2, rfl⟩ := hu
    obtain ⟨c, v2, hc, hv2, rfl⟩ := hv
    rw [hb] at hc
    cases hc
    rw [ih u2 v2 hu2 hv2]

theorem forall₂_map_eq {α β γ : Type} (R : α → β → Prop) (f : α → γ) (g : β → γ)
    (hR : ∀ a b, R a b → g b = f a) :
    ∀ (l : List α) (u : List β), List.Forall₂ R l u → u.map g = l.map f := by
  intro l u h
  induction h with
  | nil => rfl
  | cons hab _ ih => simp [hR _ _ hab, ih]

theorem treeSprite_ok {P : PixelLib F M} {cam : M} {sheet : SpritesSheet F Pic}
    {pe : Point F × Entity} {s : Sprite F M Pic} (h : treeSprite P cam sheet pe = .ok s) :
    s.pic = sheet.sprites ∧ index sheet.frames pe.2.Id = .ok s.frame ∧
      s.matrix = P.Moved P.IM (P.Unproject cam ⟨pe.1.X, pe.1.Y⟩) := by
  unfold treeSprite at h
  cases hi : index sheet.frames pe.2.Id with
  | error e =>
    rw [hi] at h
    cases h
  | ok r =>
    rw [hi] at h
    cases h
    exact ⟨rfl, rfl, rfl⟩

theorem animalSprite_ok {P : PixelLib F M} {cam : M} {sheet : SpritesSheet F Pic}
    {pe : Point F × Entity} {s : Sprite F M Pic} (h : animalSprite P cam sheet pe = .ok s) :
    s.pic = sheet.sprites ∧
      (∃ i, goRem pe.2.Id sheet.frames.length = .ok i ∧ index sheet.frames i = .ok s.frame) ∧
      s.matrix = P.Moved P.IM (P.Unproject cam ⟨pe.1.X, pe.1.Y⟩) := by
  unfold animalSprite at h
  cases hg : goRem pe.2.Id sheet.frames.length with
  | error e =>
    rw [hg] at h
    cases h
  | ok i =>
    rw [hg] at h
    cases hi : index sheet.frames i with
    | error e =>
      simp only [hi] at h
      cases h
    | ok r =>
      simp only [hi] at h
      cases h
      exact ⟨rfl, ⟨i, rfl, hi⟩, rfl⟩

theorem isAnimal_not_isTree (pe : Point F × Entity) (h : isAnimal pe = true) :
    isTree pe = false := by
  unfold isAnimal at h
  unfold isTree
  have h1 : pe.2.EntityType = "animal" := of_decide_eq_true h
  rw [h1]
  decide

theorem filter_tree_append_animal (es : List (Point F × Entity)) :
    List.Perm (es.filter isTree ++ es.filter isAnimal)
      (es.filter (fun pe => isTree pe || isAnimal pe)) := by
  have h := List.filter_append_perm isTree (es.filter (fun pe => isTree pe || isAnimal pe))
  rw [List.filter_filter, List.filter_filter] at h
  have e1 : es.filter (fun a => isTree a && (isTree a || isAnimal a)) = es.filter isTree := by
    apply List.filter_congr
    intro x _
    cases isTree x <;> simp
  have e2 : es.filter (fun a => (!isTree a) && (isTree a || isAnimal a)) = es.filter isAnimal := by
    apply List.filter_congr
    intro x _
    cases ha : isAnimal x
    · cases isTree x <;> simp
    · rw [isAnimal_not_isTree x ha]
      simp
  rw [e1, e2] at h
  exact h

end DrawLemmas

/-! ## The claims on `drawWorld` -/

section DrawClaims

variable {W F M Pic : Type}

/-- C1: the tree case of `drawWorld` indexes `tSheet.frames` with `e.Id()`
itself.  For the tree sheet of two frames and a tree whose id is 2 (a tree, a
non-negative id, a sheet with at least one frame) the lookup is out of range and
`drawWorld` panics, while an animal with the same id is drawn. -/
theorem drawWorld_tree_frame_out_of_range :
    0 < demoScene.tSheet.frames.length ∧
      ((demoWorld 2 7).Entities 0).entries.head? = some (⟨0, 0⟩, ⟨"tree", 2⟩) ∧
      drawWorld (demoWorld 2 7) ratPixel ratPixel.IM demoScene = .error .indexOutOfRange ∧
      (drawWorld (demoWorld 0 2) ratPixel ratPixel.IM demoScene).toBool = true := by
  refine ⟨by decide, rfl, rfl, rfl⟩

/-- C2: for an animal sheet with `l > 0` frames and an entity of type "animal"
with a non-negative id, the loop body of `drawWorld` draws into the animal batch
the frame `aSheet.frames[Id mod l]`; that index lies in `[0, l)`, and an animal
whose id is congruent modulo `l` is drawn with the same frame. -/
theorem animal_frame_is_id_mod (P : PixelLib F M) (cam : M) (sc : Scene W F M Pic)
    (pos : Point F) (e : Entity)
    (ha : e.EntityType = "animal") (hid : 0 ≤ e.Id) (hl : 0 < sc.aSheet.frames.length) :
    0 ≤ e.Id % (sc.aSheet.frames.length : Int) ∧
      e.Id % (sc.aSheet.frames.length : Int) < sc.aSheet.frames.length ∧
      ∃ r, sc.aSheet.frames[(e.Id % (sc.aSheet.frames.length : Int)).toNat]? = some r ∧
        drawEntity P cam sc (pos, e) =
          .ok { sc with ab := sc.ab ++
            [⟨sc.aSheet.sprites, r, P.Moved P.IM (P.Unproject cam ⟨pos.X, pos.Y⟩)⟩] } ∧
        ∀ (pos2 : Point F) (e2 : Entity), e2.EntityType = "animal" → 0 ≤ e2.Id →
          e2.Id % (sc.aSheet.frames.length : Int) = e.Id % (sc.aSheet.frames.length : Int) →
          drawEntity P cam sc (pos2, e2) =
            .ok { sc with ab := sc.ab ++
              [⟨sc.aSheet.sprites, r, P.Moved P.IM (P.Unproject cam ⟨pos2.X, pos2.Y⟩)⟩] } := by
  have hlz : (0 : Int) < sc.aSheet.frames.length := by exact_mod_cast hl
  have hne : (sc.aSheet.frames.length : Int) ≠ 0 := ne_of_gt hlz
  have h0 : 0 ≤ e.Id % (sc.aSheet.frames.length : Int) := Int.emod_nonneg _ hne
  have h1 : e.Id % (sc.aSheet.frames.length : Int) < sc.aSheet.frames.length :=
    Int.emod_lt_of_pos _ hlz
  have hlt : (e.Id % (sc.aSheet.frames.length : Int)).toNat < sc.aSheet.frames.length := by
    rw [Int.toNat_lt h0]
    exact h1
  have key : ∀ (p : Point F) (x : Entity), x.EntityType = "animal" → 0 ≤ x.Id →
      x.Id % (sc.aSheet.frames.length : Int) = e.Id % (sc.aSheet.frames.length : Int) →
      drawEntity P cam sc (p, x) =
        .ok { sc with ab := sc.ab ++
          [⟨sc.aSheet.sprites, sc.aSheet.frames.get ⟨_, hlt⟩,
            P.Moved P.IM (P.Unproject cam ⟨p.X, p.Y⟩)⟩] } := by
    intro p x hx hxid hmod
    have hrem : goRem x.Id (sc.aSheet.frames.length : Int) =
        .ok (e.Id % (sc.aSheet.frames.length : Int)) := by
      unfold goRem
      rw [if_neg hne, Int.tmod_eq_emod hxid (le_of_lt hlz), hmod]
    have hidx : index sc.aSheet.frames (e.Id % (sc.aSheet.frames.length : Int)) =
        .ok (sc.aSheet.frames.get ⟨_, hlt⟩) := by
      unfold index
      rw [if_pos h0, List.getElem?_eq_getElem hlt]
      rfl
    have hat : ¬ ("animal" = "tree") := by decide
    unfold drawEntity addToBatch
    simp only [hx, hat, if_false, if_true, hrem, hidx, bind, Except.bind, pure, Except.pure]
  refine ⟨h0, h1, sc.aSheet.frames.get ⟨_, hlt⟩, ?_, key pos e ha hid rfl, key⟩
  rw [List.getElem?_eq_getElem hlt]
  rfl

/-- Witness of C2: the animal with id 7 on the two-frame demo sheet. -/
theorem animal_frame_is_id_mod_witness :
    (7 : Int) % (demoScene.aSheet.frames.length : Int) = 1 ∧
      0 ≤ (7 : Int) % (demoScene.aSheet.frames.length : Int) ∧
      (7 : Int) % (demoScene.aSheet.frames.length : Int) < demoScene.aSheet.frames.length :=
  ⟨by decide,
    (animal_frame_is_id_mod ratPixel ratPixel.IM demoScene ⟨0, 1⟩ ⟨"animal", 7⟩ rfl
      (by decide) (by decide)).1,
    (animal_frame_is_id_mod ratPixel ratPixel.IM demoScene ⟨0, 1⟩ ⟨"animal", 7⟩ rfl
      (by decide) (by decide)).2.1⟩

/-- C4: rendering and input code never change world state.  When `drawWorld`
returns, the world (and so `world.Entities`, the entries and their order
included) and both sprite sheets are the ones it was given; `detectKeyPress`
changes the variables `camPos` and `camZoom` only: the scene with its world, the
frame counter, `camSpeed` and `camZoomSpeed` are untouched. -/
theorem rendering_and_input_keep_world (T : TypesPkg W F) (P : PixelLib F M)
    (O : Float64Ops F) (cam : M) (sc r : Scene W F M Pic) (s : State W F M Pic)
    (inp : FrameInput F) (h : drawWorld T P cam sc = .ok r) :
    r.world = sc.world ∧
      (T.Entities r.world).entries = (T.Entities sc.world).entries ∧
      r.tSheet = sc.tSheet ∧ r.aSheet = sc.aSheet ∧
      (detectKeyPress O s inp).scene = s.scene ∧
      (detectKeyPress O s inp).scene.world = s.scene.world ∧
      detectKeyPress O s inp =
        { s with camPos := (detectKeyPress O s inp).camPos,
                 camZoom := (detectKeyPress O s inp).camZoom } := by
  obtain ⟨ts, as, _, _, hr⟩ := (drawWorld_ok_iff T P cam sc r).1 h
  subst hr
  refine ⟨rfl, rfl, rfl, rfl, ?_, ?_, ?_⟩ <;>
    · unfold detectKeyPress
      cases inp.left <;> cases inp.right <;> cases inp.down <;> cases inp.up <;> rfl

/-- Witness of C4: one `drawWorld` of the demo scene and a frame with the left
key pressed. -/
theorem rendering_and_input_keep_world_witness :
    demoDrawn.world = demoScene.world ∧
      (demoTypes.Entities demoDrawn.world).entries =
        (demoTypes.Entities demoScene.world).entries :=
  ⟨(rendering_and_input_keep_world demoTypes ratPixel ratOps ratPixel.IM demoScene demoDrawn
      ⟨⟨0, 0⟩, 500, 1, 6 / 5, 0, demoScene⟩ { idle with left := true }
      (by with_unfolding_all rfl)).1,
    (rendering_and_input_keep_world demoTypes ratPixel ratOps ratPixel.IM demoScene demoDrawn
      ⟨⟨0, 0⟩, 500, 1, 6 / 5, 0, demoScene⟩ { idle with left := true }
      (by with_unfolding_all rfl)).2.1⟩

/-- C5: when `drawWorld` returns, the tree batch holds, in iteration order,
exactly one sprite per entry of `world.Entities` of type "tree" and the animal
batch exactly one sprite per entry of type "animal"; each sprite is cut from the
sheet of its kind with the frame the lookup gave and is drawn with the identity
matrix moved to `cam.Unproject` of the position of its entry.  Entries of any
other type have no sprite in either batch. -/
theorem drawWorld_draws_each_entity_once (T : TypesPkg W F) (P : PixelLib F M) (cam : M)
    (sc r : Scene W F M Pic) (h : drawWorld T P cam sc = .ok r) :
    List.Forall₂
        (fun pe s =>
          s.pic = sc.tSheet.sprites ∧ index sc.tSheet.frames pe.2.Id = .ok s.frame ∧
            s.matrix = P.Moved P.IM (P.Unproject cam ⟨pe.1.X, pe.1.Y⟩))
        ((T.Entities sc.world).entries.filter (fun pe => decide (pe.2.EntityType = "tree")))
        r.tb ∧
      List.Forall₂
        (fun pe s =>
          s.pic = sc.aSheet.sprites ∧
            (∃ i, goRem pe.2.Id sc.aSheet.frames.length = .ok i ∧
              index sc.aSheet.frames i = .ok s.frame) ∧
            s.matrix = P.Moved P.IM (P.Unproject cam ⟨pe.1.X, pe.1.Y⟩))
        ((T.Entities sc.world).entries.filter (fun pe => decide (pe.2.EntityType = "animal")))
        r.ab ∧
      r.tb.length =
        ((T.Entities sc.world).entries.filter
          (fun pe => decide (pe.2.EntityType = "tree"))).length ∧
      r.ab.length =
        ((T.Entities sc.world).entries.filter
          (fun pe => decide (pe.2.EntityType = "animal"))).length := by
  obtain ⟨ts, as, h1, h2, hr⟩ := (drawWorld_ok_iff T P cam sc r).1 h
  subst hr
  have g1 := h1.imp (fun _ _ hs => treeSprite_ok hs)
  have g2 := h2.imp (fun _ _ hs => animalSprite_ok hs)
  exact ⟨g1, g2, g1.length_eq.symm, g2.length_eq.symm⟩

/-- Witness of C5: the demo world holds a tree, an animal and a rock; each batch
ends with one sprite. -/
theorem drawWorld_draws_each_entity_once_witness :
    demoDrawn.tb.length = 1 ∧ demoDrawn.ab.length = 1 ∧
      ((demoTypes.Entities demoScene.world).entries.filter
        (fun pe => decide (pe.2.EntityType = "tree"))).length = 1 ∧
      demoDrawn.tb.length =
        ((demoTypes.Entities demoScene.world).entries.filter
          (fun pe => decide (pe.2.EntityType = "tree"))).length :=
  ⟨rfl, rfl, by decide,
    (drawWorld_draws_each_entity_once demoTypes ratPixel ratPixel.IM demoScene demoDrawn
      (by with_unfolding_all rfl)).2.2.1⟩

/-- C6: `world.Entities` is a map keyed by position, so the entries `drawWorld`
iterates have pairwise distinct positions; the sprites of one pass are, up to
order, the sprites of the tree and animal entries, one for each, and these
entries have pairwise distinct positions: no position gets two sprites. -/
theorem drawWorld_one_sprite_per_position (T : TypesPkg W F) (P : PixelLib F M) (cam : M)
    (sc r : Scene W F M Pic) (h : drawWorld T P cam sc = .ok r) :
    ((T.Entities sc.world).entries.map Prod.fst).Nodup ∧
      (((T.Entities sc.world).entries.filter (fun pe => isTree pe || isAnimal pe)).map
        Prod.fst).Nodup ∧
      List.Perm ((r.tb ++ r.ab).map Sprite.matrix)
        ((((T.Entities sc.world).entries.filter (fun pe => isTree pe || isAnimal pe)).map
          Prod.fst).map (fun pos => P.Moved P.IM (P.Unproject cam ⟨pos.X, pos.Y⟩))) := by
  obtain ⟨ts, as, h1, h2, hr⟩ := (drawWorld_ok_iff T P cam sc r).1 h
  subst hr
  refine ⟨(T.Entities sc.world).nodup, ?_, ?_⟩
  · exact ((List.filter_sublist _).map Prod.fst).nodup (T.Entities sc.world).nodup
  · have m1 := forall₂_map_eq _ (fun pe : Point F × Entity =>
        P.Moved P.IM (P.Unproject cam ⟨pe.1.X, pe.1.Y⟩)) Sprite.matrix
      (fun _ _ hs => (treeSprite_ok hs).2.2) _ _ h1
    have m2 := forall₂_map_eq _ (fun pe : Point F × Entity =>
        P.Moved P.IM (P.Unproject cam ⟨pe.1.X, pe.1.Y⟩)) Sprite.matrix
      (fun _ _ hs => (animalSprite_ok hs).2.2) _ _ h2
    show List.Perm ((ts ++ as).map Sprite.matrix) _
    rw [List.map_append, m1, m2, ← List.map_append, List.map_map]
    exact (filter_tree_append_animal _).map _

/-- Witness of C6: the demo world, whose three entries lie at three positions. -/
theorem drawWorld_one_sprite_per_position_witness :
    ((demoTypes.Entities demoScene.world).entries.map Prod.fst).Nodup ∧
      (demoDrawn.tb ++ demoDrawn.ab).length = 2 :=
  ⟨(drawWorld_one_sprite_per_position demoTypes ratPixel ratPixel.IM demoScene demoDrawn
      (by with_unfolding_all rfl)).1, rfl⟩

/-- C8: the batches `drawWorld` leaves depend only on its arguments.  Whatever
the two batches held before, the call returns the same batches; for any other
iteration order of the same entries (and the same sheets) the call returns too,
and each batch holds the same sprites up to order; calling `drawWorld` again on
its own result gives the same batches once more. -/
theorem drawWorld_depends_only_on_arguments (T : TypesPkg W F) (P : PixelLib F M) (cam : M)
    (sc r : Scene W F M Pic) (h : drawWorld T P cam sc = .ok r) :
    (∀ tb0 ab0 : Batch F M Pic, ∃ r0,
        drawWorld T P cam { sc with tb := tb0, ab := ab0 } = .ok r0 ∧
          r0.tb = r.tb ∧ r0.ab = r.ab) ∧
      (∀ (T2 : TypesPkg W F) (sc2 : Scene W F M Pic),
        List.Perm (T2.Entities sc2.world).entries (T.Entities sc.world).entries →
        sc2.tSheet = sc.tSheet → sc2.aSheet = sc.aSheet →
        ∃ r2, drawWorld T2 P cam sc2 = .ok r2 ∧
          List.Perm r2.tb r.tb ∧ List.Perm r2.ab r.ab) ∧
      (∃ r2, drawWorld T P cam r = .ok r2 ∧ r2.tb = r.tb ∧ r2.ab = r.ab) := by
  obtain ⟨ts, as, h1, h2, hr⟩ := (drawWorld_ok_iff T P cam sc r).1 h
  subst hr
  refine ⟨?_, ?_, ?_⟩
  · intro tb0 ab0
    exact ⟨_, (drawWorld_ok_iff T P cam _ _).2 ⟨ts, as, h1, h2, rfl⟩, rfl, rfl⟩
  · intro T2 sc2 hp ht ha
    obtain ⟨ts2, g1, p1⟩ := List.perm_comp_forall₂ (hp.filter isTree) h1
    obtain ⟨as2, g2, p2⟩ := List.perm_comp_forall₂ (hp.filter isAnimal) h2
    rw [← ht] at g1
    rw [← ha] at g2
    exact ⟨_, (drawWorld_ok_iff T2 P cam sc2 _).2 ⟨ts2, as2, g1, g2, rfl⟩, p1, p2⟩
  · exact ⟨_, (drawWorld_ok_iff T P cam _ _).2 ⟨ts, as, h1, h2, rfl⟩, rfl, rfl⟩

/-- Witness of C8: drawing the demo scene again, over its own result, leaves the
batches of the first pass. -/
theorem drawWorld_depends_only_on_arguments_witness :
    ∃ r2, drawWorld demoTypes ratPixel ratPixel.IM demoDrawn = .ok r2 ∧
      r2.tb = demoDrawn.tb ∧ r2.ab = demoDrawn.ab :=
  (drawWorld_depends_only_on_arguments demoTypes ratPixel ratPixel.IM demoScene demoDrawn
    (by with_unfolding_all rfl)).2.2

end DrawClaims

/-! ## Lemmas on the loop of `run` -/

section LoopLemmas

variable {W F M Pic : Type}

theorem detectKeyPress_scene (O : Float64Ops F) (s : State W F M Pic) (inp : FrameInput F) :
    (detectKeyPress O s inp).scene = s.scene ∧ (detectKeyPress O s inp).frames = s.frames := by
  unfold detectKeyPress
  cases inp.left <;> cases inp.right <;> cases inp.down <;> cases inp.up <;> exact ⟨rfl, rfl⟩

theorem beforeDraw_fields (T : TypesPkg W F) (P : PixelLib F M) (O : Float64Ops F)
    (s : State W F M Pic) (inp : FrameInput F) :
    (beforeDraw T P O s inp).scene.world = T.Update s.scene.world ∧
      (beforeDraw T P O s inp).frames = s.frames ∧
      (beforeDraw T P O s inp).scene.win.title = s.scene.win.title ∧
      (beforeDraw T P O s inp).scene.win.canvas = [] := by
  obtain ⟨h1, h2⟩ := detectKeyPress_scene O s inp
  unfold beforeDraw
  refine ⟨?_, h2, ?_, rfl⟩
  · show T.Update (detectKeyPress O s inp).scene.world = _
    rw [h1]
  · show (detectKeyPress O s inp).scene.win.title = _
    rw [h1]

theorem frame_ok_iff (T : TypesPkg W F) (P : PixelLib F M) (O : Float64Ops F)
    (s s2 : State W F M Pic) (inp : FrameInput F) :
    frame T P O s inp = .ok s2 ↔
      ∃ sc, drawWorld T P (camera P O (detectKeyPress O s inp))
          (beforeDraw T P O s inp).scene = .ok sc ∧
        s2 = countFrame { beforeDraw T P O s inp with scene := sc } inp.tick := by
  unfold frame
  simp only [bind, Except.bind, pure, Except.pure]
  cases drawWorld T P (camera P O (detectKeyPress O s inp)) (beforeDraw T P O s inp).scene with
  | error e => simp
  | ok sc =>
    simp only [Except.ok.injEq, exists_eq_left']
    exact eq_comm

theorem loop_append (T : TypesPkg W F) (P : PixelLib F M) (O : Float64Ops F)
    (pre : List (FrameInput F)) (inp : FrameInput F) (s : State W F M Pic) :
    loop T P O (pre ++ [inp]) s =
      match loop T P O pre s with
      | .ok s1 => frame T P O s1 inp
      | .error e => .error e := by
  unfold loop
  rw [List.foldlM_append]
  simp only [bind, Except.bind, List.foldlM_cons, List.foldlM_nil, pure, Except.pure]
  cases List.foldlM (frame T P O) s pre with
  | error e => rfl
  | ok s1 =>
    simp only
    cases frame T P O s1 inp <;> rfl

theorem run_append (T : TypesPkg W F) (P : PixelLib F M) (O : Float64Ops F)
    (E : Setup F Pic) (pre : List (FrameInput F)) (inp : FrameInput F) :
    (run T P O E (pre ++ [inp]) : Except Err (State W F M Pic)) =
      match run T P O E pre with
      | .ok s1 => frame T P O s1 inp
      | .error e => .error e := by
  unfold run
  simp only [bind, Except.bind]
  cases start T P O E with
  | error e => rfl
  | ok s0 => exact loop_append T P O pre inp s0

theorem start_ok (T : TypesPkg W F) (P : PixelLib F M) (O : Float64Ops F)
    (E : Setup F Pic) (s : State W F M Pic) (h : start T P O E = .ok s) :
    s.frames = 0 ∧ s.scene.world = T.build ScreenWidth ScreenHeight ∧
      s.scene.win.title = cfgTitle := by
  unfold start NewWorld at h
  simp only [ScreenWidth, ScreenHeight] at h
  norm_num at h
  cases h1 : E.NewSpritesSheet TreesPNG 32 with
  | none =>
    simp [h1, bind, Except.bind] at h
  | some ts =>
    cases h2 : E.NewSpritesSheet AnimalsPNG 48 with
    | none =>
      simp [h1, h2, bind, Except.bind] at h
    | some as =>
      cases h3 : E.windowOk with
      | false =>
        simp [h1, h2, h3, bind, Except.bind] at h
      | true =>
        simp [h1, h2, h3, bind, Except.bind, pure, Except.pure] at h
        subst h
        exact ⟨rfl, rfl, rfl⟩

theorem start_window (T : TypesPkg W F) (P : PixelLib F M) (O : Float64Ops F)
    (E : Setup F Pic) (s : State W F M Pic) (h : start T P O E = .ok s) :
    s.scene.win.bounds = cfgBounds O ∧
      E.NewSpritesSheet TreesPNG 32 = some s.scene.tSheet ∧
      E.NewSpritesSheet AnimalsPNG 48 = some s.scene.aSheet ∧ E.windowOk = true := by
  unfold start NewWorld at h
  simp only [ScreenWidth, ScreenHeight] at h
  norm_num at h
  cases h1 : E.NewSpritesSheet TreesPNG 32 with
  | none =>
    simp [h1, bind, Except.bind] at h
  | some ts =>
    cases h2 : E.NewSpritesSheet AnimalsPNG 48 with
    | none =>
      simp [h1, h2, bind, Except.bind] at h
    | some as =>
      cases h3 : E.windowOk with
      | false =>
        simp [h1, h2, h3, bind, Except.bind] at h
      | true =>
        simp [h1, h2, h3, bind, Except.bind, pure, Except.pure] at h
        subst h
        exact ⟨rfl, rfl, rfl, rfl⟩

theorem start_returns (T : TypesPkg W F) (P : PixelLib F M) (O : Float64Ops F)
    (E : Setup F Pic) (ts as : SpritesSheet F Pic)
    (h1 : E.NewSpritesSheet TreesPNG 32 = some ts)
    (h2 : E.NewSpritesSheet AnimalsPNG 48 = some as) (h3 : E.windowOk = true) :
    ∃ s : State W F M Pic, start T P O E = .ok s := by
  unfold start NewWorld
  simp only [ScreenWidth, ScreenHeight]
  norm_num
  simp [h1, h2, h3, bind, Except.bind, pure, Except.pure]

theorem run_nil (T : TypesPkg W F) (P : PixelLib F M) (O : Float64Ops F)
    (E : Setup F Pic) : (run T P O E [] : Except Err (State W F M Pic)) = start T P O E := by
  unfold run loop
  simp only [bind, Except.bind, List.foldlM_nil, pure, Except.pure]
  cases start T P O E <;> rfl

theorem framesSinceTick_append (ticks : List Bool) (b : Bool) :
    framesSinceTick (ticks ++ [b]) = if b then 0 else framesSinceTick ticks + 1 := by
  unfold framesSinceTick
  cases b <;> simp [List.takeWhile_cons]

theorem framesSinceTick_le (ticks : List Bool) : framesSinceTick ticks ≤ ticks.length := by
  unfold framesSinceTick
  have := (List.takeWhile_sublist (fun b => !b) (l := ticks.reverse)).length_le
  simpa using this

theorem wrapInt_succ (n : Int) (h0 : 0 ≤ n) (h : n + 1 < 2 ^ 63) : wrapInt (n + 1) = n + 1 := by
  unfold wrapInt
  omega

theorem index_ne_config {α : Type} (xs : List α) (i : Int) :
    index xs i ≠ .error .config := by
  unfold index
  split
  · split <;> simp
  · simp

theorem treeSprite_ne_config (P : PixelLib F M) (cam : M) (sheet : SpritesSheet F Pic)
    (pe : Point F × Entity) : treeSprite P cam sheet pe ≠ .error .config := by
  unfold treeSprite
  have := index_ne_config sheet.frames pe.2.Id
  cases hi : index sheet.frames pe.2.Id with
  | ok r => simp
  | error e =>
    rw [hi] at this
    simpa using this

theorem animalSprite_ne_config (P : PixelLib F M) (cam : M) (sheet : SpritesSheet F Pic)
    (pe : Point F × Entity) : animalSprite P cam sheet pe ≠ .error .config := by
  unfold animalSprite goRem
  by_cases hz : (sheet.frames.length : Int) = 0
  · simp [hz]
  · simp only [hz, if_false]
    have := index_ne_config sheet.frames (Int.tmod pe.2.Id sheet.frames.length)
    cases hi : index sheet.frames (Int.tmod pe.2.Id sheet.frames.length) with
    | ok r => simp
    | error e =>
      rw [hi] at this
      simpa using this

theorem drawEntity_ne_config (P : PixelLib F M) (cam : M) (sc : Scene W F M Pic)
    (pe : Point F × Entity) : drawEntity P cam sc pe ≠ .error .config := by
  rw [drawEntity_eq]
  by_cases ht : isTree pe = true
  · simp only [ht, if_true]
    have := treeSprite_ne_config P cam sc.tSheet pe
    cases hs : treeSprite P cam sc.tSheet pe with
    | ok r => simp
    | error e =>
      rw [hs] at this
      simpa using this
  · by_cases ha : isAnimal pe = true
    · simp only [ht, ha, if_false, if_true]
      have := animalSprite_ne_config P cam sc.aSheet pe
      cases hs : animalSprite P cam sc.aSheet pe with
      | ok r => simp
      | error e =>
        rw [hs] at this
        simpa using this
    · simp [ht, ha]

theorem foldlM_drawEntity_ne_config (P : PixelLib F M) (cam : M) :
    ∀ (es : List (Point F × Entity)) (sc : Scene W F M Pic),
      es.foldlM (drawEntity P cam) sc ≠ .error .config := by
  intro es
  induction es with
  | nil =>
    intro sc
    simp [pure, Except.pure]
  | cons pe es ih =>
    intro sc
    rw [List.foldlM_cons]
    have h := drawEntity_ne_config P cam sc pe
    cases hd : drawEntity P cam sc pe with
    | error e =>
      rw [hd] at h
      simpa [bind, Except.bind] using h
    | ok sc1 =>
      simpa [bind, Except.bind] using ih sc1

theorem frame_ne_config (T : TypesPkg W F) (P : PixelLib F M) (O : Float64Ops F)
    (s : State W F M Pic) (inp : FrameInput F) : frame T P O s inp ≠ .error .config := by
  unfold frame drawWorld
  simp only [bind, Except.bind, pure, Except.pure]
  have h := foldlM_drawEntity_ne_config P (camera P O (detectKeyPress O s inp))
    (T.Entities (beforeDraw T P O s inp).scene.world).entries
    { (beforeDraw T P O s inp).scene with tb := [], ab := [] }
  cases hf : List.foldlM (drawEntity P (camera P O (detectKeyPress O s inp)))
      { (beforeDraw T P O s inp).scene with tb := [], ab := [] }
      (T.Entities (beforeDraw T P O s inp).scene.world).entries with
  | error e =>
    rw [hf] at h
    simpa using h
  | ok sc => simp

theorem loop_ne_config (T : TypesPkg W F) (P : PixelLib F M) (O : Float64Ops F) :
    ∀ (inputs : List (FrameInput F)) (s : State W F M Pic),
      loop T P O inputs s ≠ .error .config := by
  intro inputs
  induction inputs with
  | nil =>
    intro s
    simp [loop, pure, Except.pure]
  | cons inp inputs ih =>
    intro s
    unfold loop
    rw [List.foldlM_cons]
    have h := frame_ne_config T P O s inp
    cases hd : frame T P O s inp with
    | error e =>
      rw [hd] at h
      simpa [bind, Except.bind] using h
    | ok s1 =>
      simpa [bind, Except.bind, loop] using ih s1

theorem start_ne_config (T : TypesPkg W F) (P : PixelLib F M) (O : Float64Ops F)
    (E : Setup F Pic) : (start T P O E : Except Err (State W F M Pic)) ≠ .error .config := by
  unfold start NewWorld
  simp only [ScreenWidth, ScreenHeight]
  norm_num
  cases E.NewSpritesSheet TreesPNG 32 <;> cases E.NewSpritesSheet AnimalsPNG 48 <;>
    cases E.windowOk <;> simp [bind, Except.bind, pure, Except.pure]

theorem frame_effect (T : TypesPkg W F) (P : PixelLib F M) (O : Float64Ops F)
    (s s2 : State W F M Pic) (inp : FrameInput F) (h : frame T P O s inp = .ok s2) :
    s2.scene.world = T.Update s.scene.world ∧
      s2.scene.win.canvas = s2.scene.tb ++ s2.scene.ab ∧
      s2.frames = (if inp.tick then 0 else wrapInt (s.frames + 1)) ∧
      s2.scene.win.title =
        (if inp.tick then fpsTitle cfgTitle (wrapInt (s.frames + 1))
          else s.scene.win.title) := by
  obtain ⟨sc, hd, rfl⟩ := (frame_ok_iff T P O s s2 inp).1 h
  obtain ⟨ts, as, _, _, rfl⟩ := (drawWorld_ok_iff T P _ _ sc).1 hd
  obtain ⟨hw, hf, ht, hc⟩ := beforeDraw_fields T P O s inp
  unfold countFrame
  cases inp.tick
  · simp only [Bool.false_eq_true, if_false]
    refine ⟨hw, ?_, ?_, ht⟩
    · show ((beforeDraw T P O s inp).scene.win.canvas ++ ts) ++ as = ts ++ as
      rw [hc]
      rfl
    · show wrapInt ((beforeDraw T P O s inp).frames + 1) = _
      rw [hf]
  · simp only [if_true]
    refine ⟨hw, ?_, trivial, ?_⟩
    · show ((beforeDraw T P O s inp).scene.win.canvas ++ ts) ++ as = ts ++ as
      rw [hc]
      rfl
    · show fpsTitle cfgTitle (wrapInt ((beforeDraw T P O s inp).frames + 1)) = _
      rw [hf]

theorem frame_bounds (T : TypesPkg W F) (P : PixelLib F M) (O : Float64Ops F)
    (s s2 : State W F M Pic) (inp : FrameInput F) (h : frame T P O s inp = .ok s2) :
    s2.scene.win.bounds = s.scene.win.bounds := by
  obtain ⟨sc, hd, rfl⟩ := (frame_ok_iff T P O s s2 inp).1 h
  obtain ⟨ts, as, _, _, rfl⟩ := (drawWorld_ok_iff T P _ _ sc).1 hd
  have hb : (beforeDraw T P O s inp).scene.win.bounds = s.scene.win.bounds := by
    unfold beforeDraw
    show (detectKeyPress O s inp).scene.win.bounds = _
    rw [(detectKeyPress_scene O s inp).1]
  unfold countFrame
  cases inp.tick <;> exact hb

theorem run_bounds (T : TypesPkg W F) (P : PixelLib F M) (O : Float64Ops F)
    (E : Setup F Pic) :
    ∀ (pre : List (FrameInput F)) (sp : State W F M Pic), run T P O E pre = .ok sp →
      sp.scene.win.bounds = cfgBounds O := by
  intro pre
  induction pre using List.reverseRecOn with
  | nil =>
    intro sp h
    rw [run_nil] at h
    exact (start_window T P O E sp h).1
  | append_singleton pre inp ih =>
    intro sp h
    rw [run_append] at h
    cases hp : (run T P O E pre : Except Err (State W F M Pic)) with
    | error e =>
      rw [hp] at h
      cases h
    | ok s1 =>
      rw [hp] at h
      simp only at h
      rw [frame_bounds T P O s1 sp inp h, ih s1 hp]

theorem run_world (T : TypesPkg W F) (P : PixelLib F M) (O : Float64Ops F)
    (E : Setup F Pic) :
    ∀ (pre : List (FrameInput F)) (sp : State W F M Pic), run T P O E pre = .ok sp →
      sp.scene.world = T.Update^[pre.length] (T.build ScreenWidth ScreenHeight) := by
  intro pre
  induction pre using List.reverseRecOn with
  | nil =>
    intro sp h
    rw [run_nil] at h
    exact (start_ok T P O E sp h).2.1
  | append_singleton pre inp ih =>
    intro sp h
    rw [run_append] at h
    cases hp : (run T P O E pre : Except Err (State W F M Pic)) with
    | error e =>
      rw [hp] at h
      cases h
    | ok s1 =>
      rw [hp] at h
      simp only at h
      rw [(frame_effect T P O s1 sp inp h).1, ih s1 hp, List.length_append, List.length_singleton,
        Function.iterate_succ_apply']

theorem run_frames (T : TypesPkg W F) (P : PixelLib F M) (O : Float64Ops F)
    (E : Setup F Pic) :
    ∀ (pre : List (FrameInput F)) (sp : State W F M Pic), pre.length < 2 ^ 63 →
      run T P O E pre = .ok sp →
      sp.frames = (framesSinceTick (pre.map (fun i => i.tick)) : Nat) := by
  intro pre
  induction pre using List.reverseRecOn with
  | nil =>
    intro sp _ h
    rw [run_nil] at h
    rw [(start_ok T P O E sp h).1]
    rfl
  | append_singleton pre inp ih =>
    intro sp hlen h
    rw [run_append] at h
    rw [List.length_append, List.length_singleton] at hlen
    cases hp : (run T P O E pre : Except Err (State W F M Pic)) with
    | error e =>
      rw [hp] at h
      cases h
    | ok s1 =>
      rw [hp] at h
      simp only at h
      have h1 := ih s1 (by omega) hp
      have hle := framesSinceTick_le (pre.map (fun i => i.tick))
      rw [List.length_map] at hle
      rw [(frame_effect T P O s1 sp inp h).2.2.1, List.map_append, List.map_singleton,
        framesSinceTick_append]
      cases inp.tick
      · simp only [Bool.false_eq_true, if_false]
        rw [wrapInt_succ _ (by omega) (by omega), h1]
        push_cast
        rfl
      · simp

end LoopLemmas

/-! ## The claims on `run` and `detectKeyPress` -/

section LoopClaims

variable {W F M Pic : Type}

/-- C7: `run` builds its world by `NewWorld(ScreenWidth, ScreenHeight)` with
`ScreenWidth = 1024` and `ScreenHeight = 768`, both strictly positive, so that
call returns the world and `run` never ends in the configuration error: when
the two sheets load and the window opens, `run` reaches its loop, and the state
it enters the loop with holds the world `NewWorld` returned for 1024 by 768 and
a window whose bounds are `pixel.R(0, 0, ScreenWidth, ScreenHeight)`, the same
dimensions; the window keeps these bounds and the world stays the updated
1024 by 768 world through every iteration. -/
theorem run_world_dimensions (T : TypesPkg W F) (P : PixelLib F M) (O : Float64Ops F)
    (E : Setup F Pic) (inputs : List (FrameInput F)) :
    ScreenWidth = 1024 ∧ ScreenHeight = 768 ∧ 0 < ScreenWidth ∧ 0 < ScreenHeight ∧
      NewWorld T ScreenWidth ScreenHeight = .ok (T.build 1024 768) ∧
      (run T P O E inputs : Except Err (State W F M Pic)) ≠ .error .config ∧
      (cfgBounds O : Rect F) =
        R (O.lit 0) (O.lit 0) (O.lit (ScreenWidth : Int)) (O.lit (ScreenHeight : Int)) ∧
      (∀ s : State W F M Pic, start T P O E = .ok s →
        NewWorld T ScreenWidth ScreenHeight = .ok s.scene.world ∧
          s.scene.world = T.build 1024 768 ∧
          s.scene.win.bounds =
            R (O.lit 0) (O.lit 0) (O.lit (ScreenWidth : Int)) (O.lit (ScreenHeight : Int))) ∧
      (∀ s : State W F M Pic, run T P O E inputs = .ok s →
        s.scene.world = T.Update^[inputs.length] (T.build 1024 768) ∧
          s.scene.win.bounds =
            R (O.lit 0) (O.lit 0) (O.lit (ScreenWidth : Int)) (O.lit (ScreenHeight : Int))) ∧
      (∀ ts as : SpritesSheet F Pic, E.NewSpritesSheet TreesPNG 32 = some ts →
        E.NewSpritesSheet AnimalsPNG 48 = some as → E.windowOk = true →
        ∃ s : State W F M Pic, start T P O E = .ok s ∧ run T P O E [] = .ok s) := by
  have hb : (cfgBounds O : Rect F) =
      R (O.lit 0) (O.lit 0) (O.lit (ScreenWidth : Int)) (O.lit (ScreenHeight : Int)) := by
    unfold cfgBounds ScreenWidth ScreenHeight
    norm_num
  refine ⟨rfl, rfl, by decide, by decide, rfl, ?_, hb, ?_, ?_, ?_⟩
  · unfold run
    have h := start_ne_config (W := W) (M := M) T P O E
    cases hs : (start T P O E : Except Err (State W F M Pic)) with
    | error e =>
      rw [hs] at h
      simpa [bind, Except.bind] using h
    | ok s =>
      simpa [bind, Except.bind] using loop_ne_config T P O inputs s
  · intro s hs
    unfold start NewWorld at hs
    simp only [ScreenWidth, ScreenHeight] at hs
    norm_num at hs
    cases h1 : E.NewSpritesSheet TreesPNG 32 with
    | none =>
      simp [h1, bind, Except.bind] at hs
    | some ts =>
      cases h2 : E.NewSpritesSheet AnimalsPNG 48 with
      | none =>
        simp [h1, h2, bind, Except.bind] at hs
      | some as =>
        cases h3 : E.windowOk with
        | false =>
          simp [h1, h2, h3, bind, Except.bind] at hs
        | true =>
          simp [h1, h2, h3, bind, Except.bind, pure, Except.pure] at hs
          subst hs
          exact ⟨rfl, rfl, hb⟩
  · intro s hs
    refine ⟨run_world T P O E inputs s hs, ?_⟩
    rw [run_bounds T P O E inputs s hs, hb]
  · intro ts as h1 h2 h3
    obtain ⟨s, hs⟩ := start_returns (W := W) (M := M) T P O E ts as h1 h2 h3
    exact ⟨s, hs, by rw [run_nil]; exact hs⟩

/-- Witness of C7: the demo, whose sheets load and whose window opens, enters
the loop with the world built for 1024 by 768 and a window of bounds
`R(0, 0, 1024, 768)`, and keeps them through a first frame. -/
theorem run_world_dimensions_witness :
    (demoStart.scene.world = demoTypes.build 1024 768 ∧
        demoStart.scene.win.bounds = R 0 0 1024 768) ∧
      ((demoFirstFrame false).scene.world = demoTypes.Update (demoTypes.build 1024 768) ∧
        (demoFirstFrame false).scene.win.bounds = R 0 0 1024 768) := by
  obtain ⟨_, _, _, _, _, _, _, hstart, hrun, _⟩ :=
    run_world_dimensions demoTypes ratPixel ratOps demoSetup [idle]
  have h1 := hstart demoStart (by with_unfolding_all rfl)
  have h2 := hrun (demoFirstFrame false) (by with_unfolding_all rfl)
  refine ⟨⟨h1.2.1, ?_⟩, ⟨h2.1, ?_⟩⟩
  · simpa [ratOps, ScreenWidth, ScreenHeight] using h1.2.2
  · simpa [ratOps, ScreenWidth, ScreenHeight] using h2.2

/-- C3: each loop iteration of `run` calls `world.Update()` once and then
`drawWorld`.  After `k - 1` completed iterations the world is `Update` applied
`k - 1` times to the world of `NewWorld(ScreenWidth, ScreenHeight)`; the `k`-th
call of `drawWorld` is made on the scene whose world is one `Update` further,
that is `Update` applied `k` times; the iteration completes exactly when this
call returns, and then the state holds that same world and the window shows the
two batches drawn from it. -/
theorem run_draws_updated_world (T : TypesPkg W F) (P : PixelLib F M) (O : Float64Ops F)
    (E : Setup F Pic) (pre : List (FrameInput F)) (inp : FrameInput F)
    (sp : State W F M Pic) (hpre : run T P O E pre = .ok sp) :
    (match NewWorld T ScreenWidth ScreenHeight with
      | .ok w0 =>
        sp.scene.world = T.Update^[pre.length] w0 ∧
          (beforeDraw T P O sp inp).scene.world = T.Update^[pre.length + 1] w0
      | .error _ => False) ∧
      (beforeDraw T P O sp inp).scene.world = T.Update sp.scene.world ∧
      (∀ s, run T P O E (pre ++ [inp]) = .ok s ↔
        ∃ sc, drawWorld T P (camera P O (detectKeyPress O sp inp))
            (beforeDraw T P O sp inp).scene = .ok sc ∧
          s = countFrame { beforeDraw T P O sp inp with scene := sc } inp.tick) ∧
      (∀ s, run T P O E (pre ++ [inp]) = .ok s →
        s.scene.world = (beforeDraw T P O sp inp).scene.world ∧
          s.scene.win.canvas = s.scene.tb ++ s.scene.ab) := by
  have hw := run_world T P O E pre sp hpre
  have hb := (beforeDraw_fields T P O sp inp).1
  have hrun : ∀ s, run T P O E (pre ++ [inp]) = .ok s ↔ frame T P O sp inp = .ok s := by
    intro s
    rw [run_append, hpre]
  refine ⟨?_, hb, ?_, ?_⟩
  · show sp.scene.world = T.Update^[pre.length] (T.build ScreenWidth ScreenHeight) ∧
      (beforeDraw T P O sp inp).scene.world =
        T.Update^[pre.length + 1] (T.build ScreenWidth ScreenHeight)
    refine ⟨hw, ?_⟩
    rw [hb, hw, Function.iterate_succ_apply']
  · intro s
    rw [hrun]
    exact frame_ok_iff T P O sp s inp
  · intro s hs
    rw [hrun] at hs
    have he := frame_effect T P O sp s inp hs
    exact ⟨he.1.trans hb.symm, he.2.1⟩

/-- Witness of C3: the first iteration of the demo, whose `drawWorld` sees the
world at tick 1. -/
theorem run_draws_updated_world_witness :
    (beforeDraw demoTypes ratPixel ratOps demoStart idle).scene.world =
      demoTypes.Update demoStart.scene.world ∧
    (demoTypes.Update demoStart.scene.world = 1) :=
  ⟨(run_draws_updated_world demoTypes ratPixel ratOps demoSetup [] idle demoStart
      (by with_unfolding_all rfl)).2.1, rfl⟩

/-- C9: the frame counter.  For a run that has completed the iterations `pre`
and then completes one more, with fewer than `2^63` iterations in all: at the
end of each iteration `frames` is the number of iterations completed since the
last one in which the ticker fired (or since the start); if the ticker fires in
the iteration, the title becomes "Simulated evolution | FPS: n", with `n` the
number of iterations since the previous firing, this one included, and `frames`
is reset to 0; if it does not fire, the title is left as it was. -/
theorem fps_counter (T : TypesPkg W F) (P : PixelLib F M) (O : Float64Ops F)
    (E : Setup F Pic) (pre : List (FrameInput F)) (inp : FrameInput F)
    (sp s : State W F M Pic) (hlen : pre.length + 1 < 2 ^ 63)
    (hpre : run T P O E pre = .ok sp) (hstep : run T P O E (pre ++ [inp]) = .ok s) :
    sp.frames = (framesSinceTick (pre.map (fun i => i.tick)) : Nat) ∧
      s.frames = (framesSinceTick ((pre ++ [inp]).map (fun i => i.tick)) : Nat) ∧
      (inp.tick = true →
        s.scene.win.title =
            "Simulated evolution | FPS: " ++
              toString (((framesSinceTick (pre.map (fun i => i.tick)) : Nat) : Int) + 1) ∧
          s.frames = 0) ∧
      (inp.tick = false → s.scene.win.title = sp.scene.win.title) := by
  have h1 := run_frames T P O E pre sp (by omega) hpre
  have h2 := run_frames T P O E (pre ++ [inp]) s
    (by rw [List.length_append, List.length_singleton]; exact hlen) hstep
  rw [run_append, hpre] at hstep
  have he := frame_effect T P O sp s inp hstep
  have hle := framesSinceTick_le (pre.map (fun i => i.tick))
  rw [List.length_map] at hle
  refine ⟨h1, h2, ?_, ?_⟩
  · intro ht
    rw [he.2.2.2, he.2.2.1, ht]
    simp only [if_true, and_true]
    rw [wrapInt_succ _ (by omega) (by omega), h1]
    rfl
  · intro ht
    rw [he.2.2.2, ht]
    rfl

/-- Witness of C9: the first iteration of the demo with the ticker firing sets
the title to "Simulated evolution | FPS: 1". -/
theorem fps_counter_witness :
    (demoFirstFrame true).scene.win.title = "Simulated evolution | FPS: 1" ∧
      ((demoFirstFrame true).scene.win.title =
          "Simulated evolution | FPS: " ++
            toString (((framesSinceTick (([] : List (FrameInput Rat)).map
              (fun i => i.tick)) : Nat) : Int) + 1) ∧
        (demoFirstFrame true).frames = 0) :=
  ⟨rfl,
    (fps_counter demoTypes ratPixel ratOps demoSetup [] { idle with tick := true } demoStart
      (demoFirstFrame true) (by decide) (by with_unfolding_all rfl)
      (by with_unfolding_all rfl)).2.2.1 rfl⟩

/-- C10: `detectKeyPress` moves the camera along the axis of the pressed key
only.  With only Left pressed `camPos.X` becomes `camPos.X - camSpeed*dt`, with
only Right `camPos.X + camSpeed*dt`, and `camPos.Y` is unchanged; with only Down
`camPos.Y` becomes `camPos.Y - camSpeed*dt`, with only Up `camPos.Y +
camSpeed*dt`, and `camPos.X` is unchanged; with no arrow key pressed `camPos` is
unchanged.  `camZoom` is multiplied by `math.Pow(camZoomSpeed, scroll.Y)`; for a
scroll of 0 it is unchanged, as `math.Pow(x, 0) = 1` and `z * 1 = z` in
`float64`.  `camSpeed` and `camZoomSpeed` are never modified.  This holds for
every `dt`. -/
theorem detectKeyPress_moves_along_pressed_axis (O : Float64Ops F) (s : State W F M Pic)
    (inp : FrameInput F) :
    (inp.left = true → inp.right = false → inp.down = false → inp.up = false →
        (detectKeyPress O s inp).camPos =
          ⟨O.sub s.camPos.X (O.mul s.camSpeed inp.dt), s.camPos.Y⟩) ∧
      (inp.left = false → inp.right = true → inp.down = false → inp.up = false →
        (detectKeyPress O s inp).camPos =
          ⟨O.add s.camPos.X (O.mul s.camSpeed inp.dt), s.camPos.Y⟩) ∧
      (inp.left = false → inp.right = false → inp.down = true → inp.up = false →
        (detectKeyPress O s inp).camPos =
          ⟨s.camPos.X, O.sub s.camPos.Y (O.mul s.camSpeed inp.dt)⟩) ∧
      (inp.left = false → inp.right = false → inp.down = false → inp.up = true →
        (detectKeyPress O s inp).camPos =
          ⟨s.camPos.X, O.add s.camPos.Y (O.mul s.camSpeed inp.dt)⟩) ∧
      (inp.left = false → inp.right = false → inp.down = false → inp.up = false →
        (detectKeyPress O s inp).camPos = s.camPos) ∧
      (detectKeyPress O s inp).camZoom =
        O.mul s.camZoom (O.Pow s.camZoomSpeed inp.scroll.Y) ∧
      ((∀ x, O.Pow x (O.lit 0) = O.lit 1) → (∀ z, O.mul z (O.lit 1) = z) →
        inp.scroll.Y = O.lit 0 → (detectKeyPress O s inp).camZoom = s.camZoom) ∧
      (detectKeyPress O s inp).camSpeed = s.camSpeed ∧
      (detectKeyPress O s inp).camZoomSpeed = s.camZoomSpeed := by
  have hz : (detectKeyPress O s inp).camZoom =
      O.mul s.camZoom (O.Pow s.camZoomSpeed inp.scroll.Y) := by
    unfold detectKeyPress
    cases inp.left <;> cases inp.right <;> cases inp.down <;> cases inp.up <;> rfl
  refine ⟨?_, ?_, ?_, ?_, ?_, hz, ?_, ?_, ?_⟩
  · intro h1 h2 h3 h4
    unfold detectKeyPress
    rw [h1, h2, h3, h4]
    rfl
  · intro h1 h2 h3 h4
    unfold detectKeyPress
    rw [h1, h2, h3, h4]
    rfl
  · intro h1 h2 h3 h4
    unfold detectKeyPress
    rw [h1, h2, h3, h4]
    rfl
  · intro h1 h2 h3 h4
    unfold detectKeyPress
    rw [h1, h2, h3, h4]
    rfl
  · intro h1 h2 h3 h4
    unfold detectKeyPress
    rw [h1, h2, h3, h4]
    rfl
  · intro hpow hmul hy
    rw [hz, hy, hpow, hmul]
  · unfold detectKeyPress
    cases inp.left <;> cases inp.right <;> cases inp.down <;> cases inp.up <;> rfl
  · unfold detectKeyPress
    cases inp.left <;> cases inp.right <;> cases inp.down <;> cases inp.up <;> rfl

/-- Witness of C10: in the demo, Left held for 1/60 s moves the camera from
`(0, 0)` to `(0 - 500 * (1/60), 0)`, and a scroll of 0 keeps the zoom at 1. -/
theorem detectKeyPress_moves_along_pressed_axis_witness :
    (detectKeyPress ratOps demoStart { idle with left := true }).camPos =
        ⟨0 - 500 * (1 / 60), 0⟩ ∧
      (detectKeyPress ratOps demoStart { idle with left := true }).camZoom = 1 :=
  ⟨(detectKeyPress_moves_along_pressed_axis ratOps demoStart { idle with left := true }).1
      rfl rfl rfl rfl,
    (detectKeyPress_moves_along_pressed_axis ratOps demoStart
      { idle with left := true }).2.2.2.2.2.2.1
      (fun x => by
        show x ^ (Rat.floor 0) = 1
        rw [show Rat.floor 0 = 0 from rfl, zpow_zero])
      (fun z => mul_one z) rfl⟩

end LoopClaims

end SimulatedEvolution
